import Mathlib

/-!
Verification development for the cookerpoker poker-server tables app.

The Django views and models under `poker-server/tables` are embedded
shallowly: the database is an explicit value threaded through each view
function, rows carry their auto-increment primary keys, and HTTP responses
(including uncaught Python exceptions, which Django turns into generic
server errors) are an explicit `Response` type.

The external rules engine `poker_core_py` is not part of this repository;
its operations are modelled from the specification of the Rules Engine
Adapter (a typed, pure capability set: new state, seat, action, tick,
projection, dev-only reset).
-/

namespace Cookerpoker

/-- Modelled from the spec: the rules-engine error taxonomy for seat and
action operations (AlreadySeatedError, TableFullError, NotYourTurnError,
IllegalActionError). -/
inductive PokerError where
  | alreadySeated
  | tableFull
  | notYourTurn
  | illegalAction
deriving Repr, DecidableEq

/-- Modelled from the spec and the code's observed convention: the engine
raises `ValueError` whose string form identifies the failure (the join view
compares `str(e)` against the literal `PlayerAlreadySeated`). -/
def PokerError.msg : PokerError → String
  | .alreadySeated => "PlayerAlreadySeated"
  | .tableFull => "TableFull"
  | .notYourTurn => "NotYourTurn"
  | .illegalAction => "IllegalAction"

/-- Modelled from the spec: a seat relates a viewer to a table with an
associated stack. -/
structure Seat where
  viewerId : Nat
  stack : Nat
deriving Repr, DecidableEq

/-- Modelled from the spec: the opaque game-state payload, reduced to the
structure the claims need: the seated players, an abstract phase counter
advanced by ticks and actions, and whose turn it is (if anyone's). -/
structure GameState where
  seats : List Seat
  phase : Nat
  turn : Option Nat
deriving Repr, DecidableEq

/-- Modelled from the spec: `initialize()` produces the canonical starting
state for a fresh table: nobody seated, nothing advanced, nobody to act. -/
def new_game_state : GameState := ⟨[], 0, none⟩

/-- Modelled from the spec: a table holds a bounded number of seats. -/
def maxSeats : Nat := 10

/-- Modelled from the spec: `seat(payload, viewer_id, stack)` fails with
AlreadySeatedError for a seated viewer, TableFullError when no seat is
free, and otherwise seats the viewer with the given stack. -/
def seat_player (s : GameState) (vid stack : Nat) : Except PokerError GameState :=
  if s.seats.any (fun q => q.viewerId == vid) then .error .alreadySeated
  else if maxSeats ≤ s.seats.length then .error .tableFull
  else .ok { s with seats := s.seats ++ [⟨vid, stack⟩] }

/-- Modelled from the spec: `advance(payload)` deterministically progresses
phases needing no viewer input; advancement is due exactly when at least
two players are seated, and otherwise the payload is returned unchanged. -/
def tick_state (s : GameState) : GameState :=
  if 2 ≤ s.seats.length then
    { s with phase := s.phase + 1, turn := some ((s.seats.headD ⟨0, 0⟩).viewerId) }
  else s

/-- Modelled from the spec: `apply_action(payload, viewer_id, action)`
fails with NotYourTurnError unless it is the viewer's turn, with
IllegalActionError for an action the rules do not recognise, and otherwise
progresses the state. -/
def player_action (s : GameState) (vid : Nat) (a : String) : Except PokerError GameState :=
  if s.turn = some vid then
    if a = "fold" ∨ a = "call" ∨ a = "check" ∨ a = "bet" then
      .ok { s with phase := s.phase + 1, turn := none }
    else .error .illegalAction
  else .error .notYourTurn

/-- Modelled from the spec: the viewer-filtered incremental diff since a
sequence, serialized for transport; a pure function of its inputs. -/
def state_changes_since (s : GameState) (seq vid : Nat) : String :=
  toString seq ++ ":" ++ toString vid ++ ":" ++ toString s.phase ++ ":" ++ toString s.seats.length

/-- Modelled from the spec: the development-only reset reinitializes the
hand while keeping the seated players. -/
def devonly_reset_state (s : GameState) : GameState :=
  { seats := s.seats, phase := 0, turn := none }

/-- Embeds the `Table` model row: auto-increment primary key, nullable
owner foreign key, name. -/
structure TableRow where
  id : Nat
  ownerId : Option Nat
  name : String
deriving Repr, DecidableEq

/-- Embeds the `TableState` model row: auto-increment primary key, nullable
table foreign key (declared with `on_delete=SET_NULL`), and the state
payload. There is no sequence column. -/
structure TableStateRow where
  id : Nat
  tableId : Option Nat
  data : GameState
deriving Repr, DecidableEq

/-- The database: the `Table` rows, the `TableState` rows in insertion
order (primary keys strictly increase along the list), and the next
auto-increment id for `TableState`. -/
structure Db where
  tables : List TableRow
  states : List TableStateRow
  nextStateId : Nat
deriving Repr, DecidableEq

/-- The rows of one table's log: `TableState.objects.filter(table_id=tid)`
in ascending id order. -/
def tableRows (db : Db) (tid : Nat) : List TableStateRow :=
  db.states.filter (fun r => r.tableId == some tid)

/-- The ids of one table's log rows, in ascending order. -/
def tableLog (db : Db) (tid : Nat) : List Nat :=
  (tableRows db tid).map (·.id)

/-- The payloads of one table's log rows, in ascending id order. -/
def tableStates (db : Db) (tid : Nat) : List GameState :=
  (tableRows db tid).map (·.data)

/-- Embeds `save_state(table, state_data)`: constructs a `TableState` row
for the table and saves it, which assigns the next auto-increment id. -/
def save_state (tid : Nat) (d : GameState) (db : Db) : Db :=
  { db with
    states := db.states ++ [⟨db.nextStateId, some tid, d⟩],
    nextStateId := db.nextStateId + 1 }

/-- Embeds `latest_state(table_id)`: query the table's rows ordered by
descending id and take the first; if there is none, build the initial
state via the rules engine, save it, and return it. Returns the payload
together with the possibly-extended database. -/
def latest_state (tid : Nat) (db : Db) : GameState × Db :=
  match (tableRows db tid).getLast? with
  | some r => (r.data, db)
  | none => (new_game_state, save_state tid new_game_state db)

/-- The outcome of a view function: a redirect, an HTTP body, a 404, a
403, or an uncaught Python exception (which Django surfaces as an untyped
500 server error). -/
inductive Response where
  | redirectPlay (tid : Nat)
  | redirectIndex
  | http (body : String)
  | notFound
  | forbidden
  | crash (msg : String)
deriving Repr, DecidableEq

/-- Whether a response is an uncaught exception escaping the view. -/
def Response.isCrash : Response → Bool
  | .crash _ => true
  | _ => false

/-- Embeds `get_object_or_404(Table, pk=table_id)` succeeding. -/
def tableExists (db : Db) (tid : Nat) : Bool :=
  db.tables.any (fun t => t.id == tid)

/-- Embeds the `join` branch of the `detail` view: read the latest state,
seat the requesting user with the hard-coded stack 1000, catch
`ValueError` and redirect to play when its text is `PlayerAlreadySeated`;
any other `ValueError` text falls out of the handled case and control
reaches `tick_state(new_state)` with `new_state` unbound, raising an
uncaught `NameError`. On success, tick once and save the ticked state. -/
def detail_join (db : Db) (tid uid : Nat) : Response × Db :=
  if tableExists db tid then
    match seat_player (latest_state tid db).1 uid 1000 with
    | .error e =>
      if e.msg = "PlayerAlreadySeated" then (Response.redirectPlay tid, (latest_state tid db).2)
      else (Response.crash "NameError", (latest_state tid db).2)
    | .ok new_state =>
      (Response.redirectPlay tid, save_state tid (tick_state new_state) (latest_state tid db).2)
  else (Response.notFound, db)

/-- Embeds `table.delete()` together with the schema's
`on_delete=SET_NULL`: the table row is removed and every `TableState` row
pointing at it has its table foreign key set to null; no state row is
removed. -/
def table_delete (db : Db) (tid : Nat) : Db :=
  { db with
    tables := db.tables.filter (fun t => !(t.id == tid)),
    states := db.states.map
      (fun r => if r.tableId == some tid then { r with tableId := none } else r) }

/-- Embeds the `delete` branch of the `detail` view: 404 when the table
does not resolve, 403 when the requester is not the owner, otherwise
delete the table and redirect to the index. -/
def detail_delete (db : Db) (tid uid : Nat) : Response × Db :=
  match db.tables.find? (fun t => t.id == tid) with
  | none => (Response.notFound, db)
  | some t =>
    if t.ownerId = some uid then (Response.redirectIndex, table_delete db tid)
    else (Response.forbidden, db)

/-- Embeds `state_since`: resolve the table, read the latest state (lazily
creating it when the log is empty), and respond with the viewer's changes
since the given sequence. No tick and no save happen on this path. -/
def state_since (db : Db) (tid uid seq : Nat) : Response × Db :=
  if tableExists db tid then
    (Response.http (state_changes_since (latest_state tid db).1 seq uid),
     (latest_state tid db).2)
  else (Response.notFound, db)

/-- Embeds `state_action`: resolve the table, read the latest state, apply
the viewer's action — with no exception handling, so an engine failure
propagates as an uncaught exception — then save the post-action state,
tick, save the post-tick state, and answer with the changes since the
viewer's last sequence. -/
def state_action (db : Db) (tid uid : Nat) (a : String) (last_seq : Nat) : Response × Db :=
  if tableExists db tid then
    match player_action (latest_state tid db).1 uid a with
    | .error e => (Response.crash e.msg, (latest_state tid db).2)
    | .ok new_state =>
      state_since
        (save_state tid (tick_state new_state)
          (save_state tid new_state (latest_state tid db).2))
        tid uid last_seq
  else (Response.notFound, db)

/-- Embeds `method_reset`: resolve the table, reset the latest state via
the rules engine, and save the reset state. Nothing is removed from the
log. -/
def method_reset (db : Db) (tid : Nat) : Response × Db :=
  if tableExists db tid then
    (Response.redirectPlay tid,
     save_state tid (devonly_reset_state (latest_state tid db).1) (latest_state tid db).2)
  else (Response.notFound, db)

/-- Representation invariant of the embedded database: `TableState` ids
strictly increase along the stored list and stay below the auto-increment
counter. -/
def Db.wf (db : Db) : Prop :=
  db.states.Pairwise (fun a b => a.id < b.id) ∧ ∀ r ∈ db.states, r.id < db.nextStateId

theorem tableRows_save_self (tid : Nat) (d : GameState) (db : Db) :
    tableRows (save_state tid d db) tid
      = tableRows db tid ++ [⟨db.nextStateId, some tid, d⟩] := by
  simp [tableRows, save_state, List.filter_append]

theorem save_state_wf (tid : Nat) (d : GameState) (db : Db) (h : db.wf) :
    (save_state tid d db).wf := by
  obtain ⟨hp, hb⟩ := h
  constructor
  · rw [save_state]
    refine List.pairwise_append.2 ⟨hp, List.pairwise_singleton _ _, ?_⟩
    intro a ha b hbm
    simp only [List.mem_singleton] at hbm
    subst hbm
    exact hb a ha
  · intro r hr
    simp only [save_state, List.mem_append, List.mem_singleton] at hr
    rcases hr with hr | hr
    · exact Nat.lt_succ_of_lt (hb r hr)
    · subst hr; exact Nat.lt_succ_self _

theorem latest_state_wf (tid : Nat) (db : Db) (h : db.wf) :
    ((latest_state tid db).2).wf := by
  rw [latest_state]
  cases hL : (tableRows db tid).getLast? with
  | some r => exact h
  | none => exact save_state_wf tid new_game_state db h

theorem state_since_wf (db : Db) (tid uid seq : Nat) (h : db.wf) :
    ((state_since db tid uid seq).2).wf := by
  rw [state_since]
  split
  · exact latest_state_wf tid db h
  · exact h

theorem detail_join_wf (db : Db) (tid uid : Nat) (h : db.wf) :
    ((detail_join db tid uid).2).wf := by
  rw [detail_join]
  split
  · split
    · split
      · exact latest_state_wf tid db h
      · exact latest_state_wf tid db h
    · exact save_state_wf tid _ _ (latest_state_wf tid db h)
  · exact h

theorem state_action_wf (db : Db) (tid uid : Nat) (a : String) (seq : Nat) (h : db.wf) :
    ((state_action db tid uid a seq).2).wf := by
  rw [state_action]
  split
  · split
    · exact latest_state_wf tid db h
    · exact state_since_wf _ tid uid seq
        (save_state_wf tid _ _ (save_state_wf tid _ _ (latest_state_wf tid db h)))
  · exact h

theorem method_reset_wf (db : Db) (tid : Nat) (h : db.wf) :
    ((method_reset db tid).2).wf := by
  rw [method_reset]
  split
  · exact save_state_wf tid _ _ (latest_state_wf tid db h)
  · exact h

theorem tableLog_pairwise (db : Db) (h : db.wf) (tid : Nat) :
    (tableLog db tid).Pairwise (· < ·) := by
  have h1 : (tableRows db tid).Pairwise (fun a b => a.id < b.id) :=
    h.1.sublist (List.filter_sublist _)
  exact List.pairwise_map.2 h1

/-- C1 (amended): for every table of a well-formed database, the stored
log is totally ordered by its strictly increasing row ids (so no
duplicates), and this ordering invariant is preserved by first read, join,
action, poll and reset; the ids come from a global counter, so a table's
ids need not start at 0 and may have gaps. -/
theorem C1_per_table_order (db : Db) (h : db.wf) (tid uid seq : Nat) (a : String) :
    (tableLog db tid).Pairwise (· < ·) ∧
    (tableLog ((latest_state tid db).2) tid).Pairwise (· < ·) ∧
    (tableLog ((detail_join db tid uid).2) tid).Pairwise (· < ·) ∧
    (tableLog ((state_since db tid uid seq).2) tid).Pairwise (· < ·) ∧
    (tableLog ((state_action db tid uid a seq).2) tid).Pairwise (· < ·) ∧
    (tableLog ((method_reset db tid).2) tid).Pairwise (· < ·) :=
  ⟨tableLog_pairwise db h tid,
   tableLog_pairwise _ (latest_state_wf tid db h) tid,
   tableLog_pairwise _ (detail_join_wf db tid uid h) tid,
   tableLog_pairwise _ (state_since_wf db tid uid seq h) tid,
   tableLog_pairwise _ (state_action_wf db tid uid a seq h) tid,
   tableLog_pairwise _ (method_reset_wf db tid h) tid⟩

/-- Two freshly created tables with no snapshots yet; the state
auto-increment starts at 1 as in the backing database. -/
def twoTablesDb : Db := ⟨[⟨1, some 1, "alpha"⟩, ⟨2, some 1, "beta"⟩], [], 1⟩

/-- The database after the first read of table 1 and then of table 2, each
of which lazily materializes that table's initial snapshot. -/
def afterTwoFirstReads : Db := (latest_state 2 ((latest_state 1 twoTablesDb).2)).2

/-- C1 counterexample: the only stored per-table ordering is the row id,
and ids are assigned globally: after its first read, table 2's log is
`[2]`, not a sequence starting at 0; after a reset appends to table 1, its
log is `[1, 3]`, which has a gap. -/
theorem C1_counterexample :
    tableLog afterTwoFirstReads 2 ≠ List.range (tableLog afterTwoFirstReads 2).length ∧
    tableLog ((method_reset afterTwoFirstReads 1).2) 1 = [1, 3] := by
  exact ⟨by decide, rfl⟩

/-- C1 witness: the amended ordering invariant, evaluated on a concrete
two-table database. -/
theorem C1_per_table_order_witness :
    (tableLog afterTwoFirstReads 1).Pairwise (· < ·) ∧
    (tableLog ((latest_state 1 afterTwoFirstReads).2) 1).Pairwise (· < ·) ∧
    (tableLog ((detail_join afterTwoFirstReads 1 5).2) 1).Pairwise (· < ·) ∧
    (tableLog ((state_since afterTwoFirstReads 1 5 0).2) 1).Pairwise (· < ·) ∧
    (tableLog ((state_action afterTwoFirstReads 1 5 "fold" 0).2) 1).Pairwise (· < ·) ∧
    (tableLog ((method_reset afterTwoFirstReads 1).2) 1).Pairwise (· < ·) :=
  C1_per_table_order afterTwoFirstReads (by constructor <;> decide) 1 5 0 "fold"

/-- C3: immediately after appending a payload to a table's log, reading the
table's latest state returns exactly the appended payload (and reads after
a write do not themselves modify the database). -/
theorem C3_read_your_writes (db : Db) (tid : Nat) (d : GameState) :
    latest_state tid (save_state tid d db) = (d, save_state tid d db) := by
  rw [latest_state, tableRows_save_self]
  simp

theorem latest_state_of_ne_nil (tid : Nat) (db : Db) (h : tableRows db tid ≠ []) :
    (latest_state tid db).2 = db := by
  rw [latest_state]
  cases hL : (tableRows db tid).getLast? with
  | some r => rfl
  | none => exact absurd (List.getLast?_eq_none_iff.1 hL) h

theorem state_since_snd_of_ne_nil (db : Db) (tid uid seq : Nat)
    (hne : tableRows db tid ≠ []) : (state_since db tid uid seq).2 = db := by
  rw [state_since]
  split
  · exact latest_state_of_ne_nil tid db hne
  · rfl

theorem tableStates_save_self (tid : Nat) (d : GameState) (db : Db) :
    tableStates (save_state tid d db) tid = tableStates db tid ++ [d] := by
  simp [tableStates, tableRows_save_self]

/-- A two-seat state where nobody has the turn. -/
def sTwoSeats : GameState := ⟨[⟨5, 1000⟩, ⟨6, 1000⟩], 0, none⟩

/-- A one-table database whose log holds the single snapshot `sTwoSeats`. -/
def dbTwo : Db := ⟨[⟨1, some 1, "alpha"⟩], [⟨1, some 1, sTwoSeats⟩], 2⟩

/-- C2 counterexample: when it is not the viewer's turn, the action view
crashes with the engine error escaping as an uncaught exception — an
untyped 500, not a typed rejected outcome — though the log is untouched. -/
theorem C2_counterexample :
    player_action sTwoSeats 5 "fold" = Except.error PokerError.notYourTurn ∧
    state_action dbTwo 1 5 "fold" 0 = (Response.crash "NotYourTurn", dbTwo) ∧
    (state_action dbTwo 1 5 "fold" 0).1.isCrash = true :=
  ⟨rfl, rfl, rfl⟩

/-- C2 (amended): if the action fails with IllegalActionError or
NotYourTurnError on a table whose log is nonempty, no entry is appended
(the database is exactly what it was), but the error propagates as an
uncaught exception rather than a typed rejected outcome. -/
theorem C2_reject_no_append (db : Db) (tid uid seq : Nat) (a : String) (e : PokerError)
    (hex : tableExists db tid = true)
    (hne : tableRows db tid ≠ [])
    (herr : player_action (latest_state tid db).1 uid a = .error e) :
    state_action db tid uid a seq = (Response.crash e.msg, db) := by
  rw [state_action, if_pos hex, herr, latest_state_of_ne_nil tid db hne]

/-- C2 witness: the amended statement evaluated on `dbTwo`. -/
theorem C2_reject_no_append_witness :
    state_action dbTwo 1 5 "call" 0 = (Response.crash "NotYourTurn", dbTwo) :=
  C2_reject_no_append dbTwo 1 5 0 "call" PokerError.notYourTurn rfl (by decide) rfl

/-- C4: a join whose seat operation fails with AlreadySeatedError is a
no-op success: the caller is redirected to play and the database — hence
the table's log and its latest entry — is unchanged. -/
theorem C4_idempotent_join (db : Db) (tid uid : Nat)
    (hex : tableExists db tid = true)
    (hne : tableRows db tid ≠ [])
    (hseat : seat_player (latest_state tid db).1 uid 1000 = .error .alreadySeated) :
    detail_join db tid uid = (Response.redirectPlay tid, db) := by
  rw [detail_join, if_pos hex, hseat, latest_state_of_ne_nil tid db hne]
  simp [PokerError.msg]

/-- A state with viewer 5 seated, and a database whose table 1 stores it. -/
def sSeated5 : GameState := ⟨[⟨5, 1000⟩], 1, none⟩

/-- A one-table database whose log holds the single snapshot `sSeated5`. -/
def dbSeated : Db := ⟨[⟨1, some 1, "alpha"⟩], [⟨1, some 1, sSeated5⟩], 2⟩

/-- C4 witness: viewer 5, already seated at table 1, joins again: success
redirect and an unchanged database. -/
theorem C4_idempotent_join_witness :
    detail_join dbSeated 1 5 = (Response.redirectPlay 1, dbSeated) :=
  C4_idempotent_join dbSeated 1 5 rfl (by decide) rfl

/-- A database whose table 1 (owned by user 9) has a two-entry log. -/
def dbDel : Db := ⟨[⟨1, some 9, "alpha"⟩], [⟨1, some 1, sSeated5⟩, ⟨2, some 1, sTwoSeats⟩], 3⟩

/-- C5 counterexample: the owner deletes table 1, whose log was rows 1 and
2; afterwards both snapshot rows are still present in the persisted store
(the schema's SET_NULL detaches them instead of deleting them). -/
theorem C5_counterexample :
    tableLog dbDel 1 = [1, 2] ∧
    (detail_delete dbDel 1 9).1 = Response.redirectIndex ∧
    (detail_delete dbDel 1 9).2.states.map (·.id) = [1, 2] :=
  ⟨rfl, rfl, rfl⟩

/-- C5 (amended): deleting a table removes the table row and detaches the
table's snapshots by setting their table reference to null; the snapshot
rows themselves — same count, same ids — remain in the persisted store. -/
theorem C5_delete_detaches (db : Db) (tid : Nat) :
    (table_delete db tid).states.length = db.states.length ∧
    (table_delete db tid).states.map (·.id) = db.states.map (·.id) ∧
    (∀ r ∈ (table_delete db tid).states, r.tableId ≠ some tid) ∧
    ∀ t ∈ (table_delete db tid).tables, t.id ≠ tid := by
  refine ⟨by simp [table_delete], ?_, ?_, ?_⟩
  · rw [table_delete]
    simp only [List.map_map]
    refine List.map_congr_left ?_
    intro r _
    by_cases hc : r.tableId = some tid <;> simp [hc]
  · intro r hr
    simp only [table_delete, List.mem_map] at hr
    obtain ⟨r0, _, hrr⟩ := hr
    by_cases hc : r0.tableId == some tid
    · rw [if_pos hc] at hrr
      rw [← hrr]
      simp
    · rw [if_neg hc] at hrr
      rw [← hrr]
      simpa using hc
  · intro t ht
    have := (List.mem_filter.1 ht).2
    simpa using this

/-- C6 counterexample: on `dbTwo`, advancement is due (ticking the stored
snapshot changes it), yet a poll-only request persists nothing and leaves
the database exactly as it was: the advanced snapshot is never stored. -/
theorem C6_counterexample :
    tick_state sTwoSeats ≠ sTwoSeats ∧
    (state_since dbTwo 1 5 0).2 = dbTwo :=
  ⟨by decide, rfl⟩

/-- C6 (amended): a poll-only request on a table whose log is nonempty
never modifies the database: it neither auto-advances nor persists
anything, and only projects changes from the stored latest snapshot. -/
theorem C6_poll_no_mutation (db : Db) (tid uid seq : Nat)
    (hne : tableRows db tid ≠ []) :
    (state_since db tid uid seq).2 = db :=
  state_since_snd_of_ne_nil db tid uid seq hne

/-- C6 witness: the amended statement evaluated on `dbTwo`. -/
theorem C6_poll_no_mutation_witness : (state_since dbTwo 1 6 0).2 = dbTwo :=
  C6_poll_no_mutation dbTwo 1 6 0 (by decide)

theorem tableRows_save_self_ne_nil (tid : Nat) (d : GameState) (db : Db) :
    tableRows (save_state tid d db) tid ≠ [] := by
  rw [tableRows_save_self]
  simp

/-- C7: when the rules engine accepts the viewer's action on a table whose
log is nonempty, the request appends exactly two entries, in order: first
the post-action snapshot, then the post-advance snapshot. -/
theorem C7_action_two_appends (db : Db) (tid uid : Nat) (a : String) (seq : Nat)
    (s' : GameState)
    (hex : tableExists db tid = true)
    (hne : tableRows db tid ≠ [])
    (hok : player_action (latest_state tid db).1 uid a = .ok s') :
    tableStates (state_action db tid uid a seq).2 tid
      = tableStates db tid ++ [s', tick_state s'] := by
  rw [state_action, if_pos hex, hok, latest_state_of_ne_nil tid db hne]
  rw [state_since_snd_of_ne_nil _ tid uid seq (tableRows_save_self_ne_nil tid _ _)]
  rw [tableStates_save_self, tableStates_save_self]
  simp

/-- A state where it is viewer 5's turn, a database storing it as table
1's only snapshot, and the state after viewer 5 folds. -/
def sTurn5 : GameState := ⟨[⟨5, 1000⟩, ⟨6, 1000⟩], 1, some 5⟩

/-- A one-table database whose log holds the single snapshot `sTurn5`. -/
def dbTurn : Db := ⟨[⟨1, some 1, "alpha"⟩], [⟨1, some 1, sTurn5⟩], 2⟩

/-- The state produced by viewer 5 folding in `sTurn5`. -/
def sActed : GameState := ⟨[⟨5, 1000⟩, ⟨6, 1000⟩], 2, none⟩

/-- C7 witness: viewer 5 folds at table 1; the log gains exactly the
post-action and post-advance snapshots, in that order. -/
theorem C7_action_two_appends_witness :
    tableStates (state_action dbTurn 1 5 "fold" 0).2 1
      = tableStates dbTurn 1 ++ [sActed, tick_state sActed] :=
  C7_action_two_appends dbTurn 1 5 "fold" 0 sActed rfl (by decide) rfl

/-- A full table: `maxSeats` viewers already seated. -/
def sFull : GameState := ⟨(List.range maxSeats).map (fun i => ⟨i, 500⟩), 0, none⟩

/-- A one-table database whose log holds the single snapshot `sFull`. -/
def dbFull : Db := ⟨[⟨1, some 1, "alpha"⟩], [⟨1, some 1, sFull⟩], 2⟩

/-- C8: a join on a full table. The engine rejects the seat with
TableFullError, but the view's exception handler only matches the
already-seated message and then falls through to `tick_state(new_state)`
with `new_state` never assigned, so the request dies with an uncaught
NameError — an untyped crash, not a typed rejected outcome. No entry is
appended (the database is unchanged). -/
theorem C8_table_full_crash :
    seat_player sFull 99 1000 = Except.error PokerError.tableFull ∧
    detail_join dbFull 1 99 = (Response.crash "NameError", dbFull) ∧
    (detail_join dbFull 1 99).1.isCrash = true :=
  ⟨rfl, rfl, rfl⟩

/-- A state from an in-progress hand and a database storing it as table
1's only snapshot. -/
def sOld : GameState := ⟨[⟨5, 1000⟩], 3, none⟩

/-- A one-table database whose log holds the single snapshot `sOld`. -/
def dbOld : Db := ⟨[⟨1, some 1, "alpha"⟩], [⟨1, some 1, sOld⟩], 2⟩

/-- C9 counterexample: resetting table 1 appends the reset snapshot while
the pre-reset entry `sOld` remains the first entry of the log, so after
the reset the log does not consist only of a fresh initial state. -/
theorem C9_counterexample :
    tableStates ((method_reset dbOld 1).2) 1 = [sOld, devonly_reset_state sOld] ∧
    sOld ≠ devonly_reset_state sOld :=
  ⟨rfl, by decide⟩

/-- C9 (amended): on a table whose log is nonempty, an admin reset appends
the rules-engine reset of the latest snapshot as one new log entry; every
entry from before the reset remains in the log. -/
theorem C9_reset_appends (db : Db) (tid : Nat)
    (hex : tableExists db tid = true) (hne : tableRows db tid ≠ []) :
    tableStates ((method_reset db tid).2) tid
      = tableStates db tid ++ [devonly_reset_state (latest_state tid db).1] := by
  rw [method_reset, if_pos hex]
  show tableStates (save_state tid (devonly_reset_state (latest_state tid db).1)
    (latest_state tid db).2) tid = _
  rw [latest_state_of_ne_nil tid db hne, tableStates_save_self]

/-- C9 witness: the amended statement evaluated on `dbOld`. -/
theorem C9_reset_appends_witness :
    tableStates ((method_reset dbOld 1).2) 1
      = tableStates dbOld 1 ++ [devonly_reset_state (latest_state 1 dbOld).1] :=
  C9_reset_appends dbOld 1 rfl (by decide)

theorem tick_state_seats (s : GameState) : (tick_state s).seats = s.seats := by
  rw [tick_state]
  split <;> rfl

/-- C10: the join view hard-codes stack 1000 and reads no stack from the
request; whenever the seat operation succeeds, the view persists exactly
the ticked post-seat snapshot, and that snapshot seats the requesting
viewer with stack exactly 1000. -/
theorem C10_join_stack_1000 (db : Db) (tid uid : Nat) (s' : GameState)
    (hex : tableExists db tid = true)
    (hok : seat_player (latest_state tid db).1 uid 1000 = .ok s') :
    detail_join db tid uid
      = (Response.redirectPlay tid,
         save_state tid (tick_state s') (latest_state tid db).2) ∧
    Seat.mk uid 1000 ∈ (tick_state s').seats := by
  constructor
  · rw [detail_join, if_pos hex, hok]
  · rw [tick_state_seats]
    rw [seat_player] at hok
    split_ifs at hok
    all_goals first
      | exact Except.noConfusion hok
      | (cases hok; simp)

/-- The post-seat state of viewer 7 joining the table of `dbTwo`. -/
def sTwoPlus7 : GameState := ⟨[⟨5, 1000⟩, ⟨6, 1000⟩, ⟨7, 1000⟩], 0, none⟩

/-- C10 witness: viewer 7 joins table 1 of `dbTwo` and ends up seated with
stack exactly 1000 in the persisted snapshot. -/
theorem C10_join_stack_1000_witness :
    detail_join dbTwo 1 7
      = (Response.redirectPlay 1,
         save_state 1 (tick_state sTwoPlus7) (latest_state 1 dbTwo).2) ∧
    Seat.mk 7 1000 ∈ (tick_state sTwoPlus7).seats :=
  C10_join_stack_1000 dbTwo 1 7 sTwoPlus7 rfl rfl

end Cookerpoker
